import Mathlib

/-!
Verification of the deepseek_proxy core against its specification.

Each section embeds one Rust module as executable Lean definitions and proves
the stated properties about them:

* `src/deepseek_proxy/src/utils.rs` and `quota/manager.rs` — calendar reset
  computation (`next_month_reset`), quota check-and-increment, coalesced and
  shutdown persistence.
* `src/deepseek_proxy/src/auth/bruteforce.rs` and `auth/handler.rs` — the
  brute-force guard and the login pipeline.
* `src/deepseek_proxy/src/proxy/limiter.rs` — the token/permit manager.
* `src/deepseek_proxy/src/proxy/rate_limiter.rs` — the global token bucket.
* `src/deepseek_proxy/src/auth/user_manager.rs` — user persistence and
  username validation.
-/

namespace DeepseekProxy

/-! ### Calendar model (chrono fragment used by `next_month_reset`) -/

/-- A naive calendar date-time, component for component the
`chrono::NaiveDateTime` values built in `quota/manager.rs`. -/
structure NaiveDT where
  year : Int
  month : Nat
  day : Nat
  hour : Nat
  minute : Nat
  second : Nat
deriving DecidableEq, Repr

/-- Gregorian leap-year rule, as `chrono` implements it. -/
def isLeapYear (y : Int) : Bool :=
  (y % 4 == 0 && y % 100 != 0) || y % 400 == 0

/-- Days in a Gregorian month. -/
def daysInMonth (y : Int) (m : Nat) : Nat :=
  if m == 2 then (if isLeapYear y then 29 else 28)
  else if m == 4 || m == 6 || m == 9 || m == 11 then 30
  else 31

/-- Step a naive date-time to the same clock time on the next calendar day. -/
def nextDay (dt : NaiveDT) : NaiveDT :=
  if dt.day < daysInMonth dt.year dt.month then
    { dt with day := dt.day + 1 }
  else if dt.month < 12 then
    { dt with month := dt.month + 1, day := 1 }
  else
    { dt with year := dt.year + 1, month := 1, day := 1 }

/-- Add a (non-negative) number of seconds to a naive date-time, carrying
across day, month and year boundaries. -/
def addSeconds (dt : NaiveDT) (s : Nat) : NaiveDT :=
  let tot := dt.hour * 3600 + dt.minute * 60 + dt.second + s
  let rest := tot % 86400
  let carry := tot / 86400
  let base : NaiveDT :=
    { dt with hour := rest / 3600, minute := rest % 3600 / 60, second := rest % 60 }
  Nat.repeat nextDay carry base

/-- What `DateTime::<FixedOffset>::to_rfc3339` prints: the local calendar
components together with the offset (in seconds east of UTC). -/
structure RenderedDT where
  localTime : NaiveDT
  offsetSeconds : Int
deriving DecidableEq, Repr

/-- `chrono::DateTime::from_naive_utc_and_offset(naive, off)` interprets its
first argument as a UTC instant and keeps `off` for display; `to_rfc3339`
then renders the local time `naive + off`.  This definition composes the two,
exactly as `next_month_reset` in `quota/manager.rs` does. -/
def fromNaiveUtcAndOffsetRendered (naiveUtc : NaiveDT) (offSeconds : Nat) : RenderedDT :=
  ⟨addSeconds naiveUtc offSeconds, (offSeconds : Int)⟩

/-- `QuotaManager::next_month_reset` (quota/manager.rs:252-271): from the
current Beijing local time `now`, build the naive date-time of the first
second of the following month (December wraps the year), attach the +08:00
offset via `DateTime::from_naive_utc_and_offset`, and render it with
`to_rfc3339`. -/
def next_month_reset (now : NaiveDT) : RenderedDT :=
  let nextMonth : NaiveDT :=
    if now.month == 12 then ⟨now.year + 1, 1, 1, 0, 0, 0⟩
    else ⟨now.year, now.month + 1, 1, 0, 0, 0⟩
  fromNaiveUtcAndOffsetRendered nextMonth (8 * 3600)

/-! ### Error kinds and their HTTP mapping (error.rs) -/

/-- The `AppError` variants exercised by the claims, from error.rs. -/
inductive AppErr where
  | unauthorized (msg : String)
  | tooManyRequests
  | paymentRequired (used limit : Nat) (reset_at : Int)
  | badRequest (msg : String)
  | notFound (msg : String)
  | internalError (msg : String)
deriving DecidableEq, Repr

/-- The HTTP status code `impl IntoResponse for AppError` assigns to each
variant (error.rs:140-248). -/
def AppErr.httpStatus : AppErr → Nat
  | .unauthorized _ => 401
  | .tooManyRequests => 429
  | .paymentRequired _ _ _ => 402
  | .badRequest _ => 400
  | .notFound _ => 404
  | .internalError _ => 500

/-! ### Quota engine (quota/types.rs, quota/manager.rs)

Timestamps (`reset_at` and `now`) are modelled as integers on a single UTC
timeline; the Rust code stores `reset_at` as an RFC3339 string and re-parses
it on every call, which for a well-formed stored value is the identity this
model collapses. -/

/-- In-memory `QuotaState` (quota/types.rs:64-78). -/
structure QuotaState where
  username : String
  tier : String
  monthly_limit : Nat
  used_count : Nat
  last_saved_count : Nat
  reset_at : Int
  last_saved_at : Option Int
  dirty : Bool
deriving DecidableEq, Repr

/-- The quota record as serde writes it to `<user>.json`: every field of
`QuotaState` except `dirty`, which carries `#[serde(skip)]`. -/
structure QuotaStateDisk where
  username : String
  tier : String
  monthly_limit : Nat
  used_count : Nat
  last_saved_count : Nat
  reset_at : Int
  last_saved_at : Option Int
deriving DecidableEq, Repr

/-- Serialization of a quota state for persistence (drops `dirty`). -/
def serializeQuota (st : QuotaState) : QuotaStateDisk :=
  ⟨st.username, st.tier, st.monthly_limit, st.used_count, st.last_saved_count,
   st.reset_at, st.last_saved_at⟩

/-- `QuotaStatus` (quota/types.rs:46-62). -/
inductive QuotaStatus where
  | ok (used limit remaining : Nat) (reset_at : Int)
  | exceeded (used limit : Nat) (reset_at : Int)
deriving DecidableEq, Repr

/-- HTTP status the proxy handler produces for a quota outcome: an
`Exceeded` result is returned as `AppError::PaymentRequired` (402), an `Ok`
result lets the request proceed (200 on success). -/
def quotaHttpStatus : QuotaStatus → Nat
  | .ok _ _ _ _ => 200
  | .exceeded used limit reset_at => (AppErr.paymentRequired used limit reset_at).httpStatus

/-- Result of one `check_and_increment` call: the returned status, the
state left in the cache, and the quota records written to disk, in order. -/
structure QuotaCallResult where
  status : QuotaStatus
  state : QuotaState
  writes : List QuotaStateDisk
deriving DecidableEq, Repr

/-- `QuotaManager::check_and_increment` (quota/manager.rs:87-184), after
`load_or_init` has put `st0` in the cache.  `now` is the `Utc::now()` taken
once at the top; `nextReset` is the value `next_month_reset()` would return
on this call.  The month boundary is handled first (reset both counters,
install `nextReset`, flush immediately); then the limit check rejects without
touching the state; otherwise the counter is incremented and flushed when the
unsaved delta reaches `save_interval`. -/
def check_and_increment (save_interval : Nat) (now nextReset : Int)
    (st0 : QuotaState) : QuotaCallResult :=
  let needReset := now > st0.reset_at
  let st := if needReset then
      { st0 with used_count := 0, last_saved_count := 0, reset_at := nextReset, dirty := true }
    else st0
  let writes0 : List QuotaStateDisk := if needReset then [serializeQuota st] else []
  if st.used_count ≥ st.monthly_limit then
    ⟨.exceeded st.used_count st.monthly_limit st.reset_at, st, writes0⟩
  else
    let st1 := { st with used_count := st.used_count + 1, dirty := true }
    if st1.used_count - st1.last_saved_count ≥ save_interval then
      let st2 := { st1 with
        last_saved_count := st1.used_count,
        last_saved_at := some now, dirty := false }
      ⟨.ok st2.used_count st2.monthly_limit (st2.monthly_limit - st2.used_count) st2.reset_at,
       st2, writes0 ++ [serializeQuota st2]⟩
    else
      ⟨.ok st1.used_count st1.monthly_limit (st1.monthly_limit - st1.used_count) st1.reset_at,
       st1, writes0⟩

/-- `QuotaManager::save_all` (quota/manager.rs:233-249): snapshot the cache,
and for every entry whose `dirty` flag is set, `save_one` writes the cloned
state as-is (quota/manager.rs:198-225 copies the state and serializes it
without modifying any counter). -/
def save_all_writes (cache : List (String × QuotaState)) : List (String × QuotaStateDisk) :=
  (cache.filter (fun p => p.2.dirty)).map (fun p => (p.1, serializeQuota p.2))

/-! ### Association-list maps

`DashMap` / `HashMap` state is embedded as an association list with unique
keys maintained by construction; `findEntry`, `setEntry` and `eraseEntry`
are the lookup, insert-or-replace and remove operations. -/

/-- Look a key up in an association list (first match). -/
def findEntry {β : Type} : List (String × β) → String → Option β
  | [], _ => none
  | (k, v) :: rest, key => if k = key then some v else findEntry rest key

/-- Insert or replace the value stored under a key. -/
def setEntry {β : Type} : List (String × β) → String → β → List (String × β)
  | [], key, v => [(key, v)]
  | (k, v') :: rest, key, v =>
      if k = key then (key, v) :: rest else (k, v') :: setEntry rest key v

/-- Remove a key from an association list. -/
def eraseEntry {β : Type} : List (String × β) → String → List (String × β)
  | [], _ => []
  | (k, v) :: rest, key =>
      if k = key then eraseEntry rest key else (k, v) :: eraseEntry rest key

/-! ### Brute-force guard (auth/bruteforce.rs)

`Instant`s are modelled as natural numbers (seconds); `now.duration_since t`
for a recorded `t ≤ now` is `now - t`. -/

/-- `SecurityConfig` fields used by the guard (config.rs). -/
structure SecurityConfig where
  login_fail_window_seconds : Nat
  login_fail_threshold : Nat
deriving DecidableEq, Repr

/-- Failure map: `username:ip` key to the recorded failure instants. -/
abbrev Attempts := List (String × List Nat)

/-- `BruteForceGuard::key` (auth/bruteforce.rs:14). -/
def bfKey (username ip : String) : String := username ++ ":" ++ ip

/-- `BruteForceGuard::record_failure` (auth/bruteforce.rs:16-25): prune the
entry's instants to the window, append `now`, return the new map and the
remaining count. -/
def record_failure (cfg : SecurityConfig) (m : Attempts) (now : Nat)
    (username ip : String) : Attempts × Nat :=
  let k := bfKey username ip
  let old := (findEntry m k).getD []
  let pruned := old.filter (fun t => now - t ≤ cfg.login_fail_window_seconds)
  let updated := pruned ++ [now]
  (setEntry m k updated, updated.length)

/-- `BruteForceGuard::should_block` (auth/bruteforce.rs:27-32): look the
entry up and compare its stored length against the threshold.  Note: no
pruning happens here — the stored instants are used as-is. -/
def should_block (cfg : SecurityConfig) (m : Attempts) (username ip : String) : Bool :=
  match findEntry m (bfKey username ip) with
  | some v => cfg.login_fail_threshold ≤ v.length
  | none => false

/-- Modelled from the spec for comparison with `should_block`: "prune,
return `count ≥ threshold`" — prune the entry to the window at `now` first,
then compare the remaining count against the threshold. -/
def should_block_specModel (cfg : SecurityConfig) (m : Attempts) (now : Nat)
    (username ip : String) : Bool :=
  match findEntry m (bfKey username ip) with
  | some v =>
      cfg.login_fail_threshold ≤
        (v.filter (fun t => now - t ≤ cfg.login_fail_window_seconds)).length
  | none => false

/-- `BruteForceGuard::reset_on_success` (auth/bruteforce.rs:34-37). -/
def reset_on_success (m : Attempts) (username ip : String) : Attempts :=
  eraseEntry m (bfKey username ip)

/-! ### Token/permit manager (proxy/limiter.rs)

An entry of `LoginLimiter`'s map is `(token, Arc<Semaphore>, Instant)`; the
semaphore is created with one permit.  `available` is the semaphore's
current permit count and `holders` is a ghost field counting the outstanding
`OwnedSemaphorePermit` handles on that semaphore (a handle's drop returns
its permit). -/

/-- One cache entry of the `LoginLimiter`. -/
structure TokenEntry where
  token : String
  available : Nat
  holders : Nat
  expires_at : Nat
deriving DecidableEq, Repr

/-- The limiter's map: username to entry. -/
abbrev TokenCache := List (String × TokenEntry)

/-- Lazy cleanup performed at the top of every limiter operation:
`cache.retain(|_, (_, _, expires_at)| now < *expires_at)`. -/
def pruneCache (now : Nat) (c : TokenCache) : TokenCache :=
  c.filter (fun p => now < p.2.expires_at)

/-- Entry-level well-formedness: the single-permit semaphore's permits are
split between the slot and the outstanding handles. -/
def entryWF (e : TokenEntry) : Bool := e.available + e.holders == 1

/-- Cache-level well-formedness: every entry is well formed. -/
def cacheWF (c : TokenCache) : Bool := c.all (fun p => entryWF p.2)

/-- `LoginLimiter::get_or_generate` (proxy/limiter.rs:62-96): prune, return
the cached token if the user's entry is live, otherwise mint `freshTok`,
create a fresh single-permit semaphore and insert the entry with
`expires_at = now + ttl`. -/
def get_or_generate (ttl now : Nat) (c : TokenCache) (username freshTok : String) :
    String × TokenCache :=
  match findEntry (pruneCache now c) username with
  | some e =>
      if now < e.expires_at then (e.token, pruneCache now c)
      else (freshTok, setEntry (pruneCache now c) username ⟨freshTok, 1, 0, now + ttl⟩)
  | none => (freshTok, setEntry (pruneCache now c) username ⟨freshTok, 1, 0, now + ttl⟩)

/-- `LoginLimiter::acquire_permit_by_username` (proxy/limiter.rs:153-178):
prune; a live entry with a free permit hands out an owning handle
(`try_acquire_owned`), a live entry whose permit is taken fails with
`TooManyRequests`, and a user without a live entry fails with
`Unauthorized("Token已过期，请重新登录")`. -/
def acquire_permit_by_username (now : Nat) (c : TokenCache) (username : String) :
    Except AppErr Unit × TokenCache :=
  match findEntry (pruneCache now c) username with
  | some e =>
      if now < e.expires_at then
        if e.available = 0 then (.error .tooManyRequests, pruneCache now c)
        else (.ok (),
              setEntry (pruneCache now c) username
                { e with available := e.available - 1, holders := e.holders + 1 })
      else (.error (.unauthorized "Token已过期，请重新登录"), pruneCache now c)
  | none => (.error (.unauthorized "Token已过期，请重新登录"), pruneCache now c)

/-- Drop of a `TokenPermit` handle: the owned permit returns to its
semaphore.  When the handle's entry is still the cached one (a handle is
outstanding, `holders ≥ 1`), the slot regains the permit; a handle whose
entry was already evicted releases to a semaphore no longer in the cache,
leaving the cache unchanged. -/
def release_permit (c : TokenCache) (username : String) : TokenCache :=
  match findEntry c username with
  | some e =>
      if e.holders = 0 then c
      else setEntry c username
        { e with available := e.available + 1, holders := e.holders - 1 }
  | none => c

/-! ### JwtService TTL plumbing (auth/jwt.rs, main.rs, auth/handler.rs) -/

/-- `JwtService::new` (auth/jwt.rs:20-32): the configured TTL is converted
to `i64` (failing above `i64::MAX`), rejected when zero, and otherwise
stored unchanged. -/
def JwtService.new (ttl_seconds : Nat) : Except String Nat :=
  if ttl_seconds ≥ 2 ^ 63 then .error "TTL时间溢出：超过i64最大值"
  else if ttl_seconds = 0 then .error "TTL时间必须大于0"
  else .ok ttl_seconds

/-- `JwtService::get_ttl_seconds` (auth/jwt.rs:77-79) on a service built
from the configured TTL: the stored value, unchanged. -/
def get_ttl_seconds (stored_ttl : Nat) : Nat := stored_ttl

/-- The TTL `main` hands to `LoginLimiter::new` (main.rs:78):
`config.auth.token_ttl_seconds`, with no clamping. -/
def mainLoginLimiterTtl (token_ttl_seconds : Nat) : Nat := token_ttl_seconds

/-- The reuse window `main` *logs* (main.rs:58):
`config.auth.token_ttl_seconds.min(60)`. -/
def mainLoggedReuseWindow (token_ttl_seconds : Nat) : Nat :=
  min token_ttl_seconds 60

/-- The `expires_in` field of a successful login response
(auth/handler.rs:86-89): `jwt_service.get_ttl_seconds()`, where the service
stores the configured TTL unchanged. -/
def login_expires_in (token_ttl_seconds : Nat) : Nat :=
  get_ttl_seconds token_ttl_seconds

/-! ### Login pipeline (auth/handler.rs:18-90) -/

/-- The three response classes the login handler can produce. -/
inductive LoginResponse where
  | success (token : String) (expires_in : Nat)
  | unauthorized
  | tooManyRequests
deriving DecidableEq, Repr

/-- Outcome of one login call: the HTTP-level response, the brute-force map
and token cache afterwards, and whether a `login_bruteforce_blocked`
webhook notification was spawned on this call (when a webhook URL is
configured). -/
structure LoginOutcome where
  response : LoginResponse
  attempts : Attempts
  cache : TokenCache
  webhook : Bool
deriving DecidableEq, Repr

/-- The `login` handler (auth/handler.rs:18-90).  `globalOk` is the global
rate limiter's verdict, `credOk` whether `find_user` matched the
credentials, `isActive` the account flag, `hasWebhook` whether
`security.webhook_url` is configured, and `freshTok` the token
`jwt_service.generate_token` would mint.  Order as in the source: global
limit, brute-force block check (emitting the webhook when blocked), then
credential check — a failure records it and returns 429 when the new count
meets the threshold (emitting the webhook) and 401 otherwise — then the
active flag, then token issue-or-reuse and brute-force reset. -/
def login (cfg : SecurityConfig) (ttl : Nat)
    (hasWebhook globalOk credOk isActive : Bool) (freshTok : String)
    (m : Attempts) (cache : TokenCache) (now : Nat)
    (username ip : String) : LoginOutcome :=
  if !globalOk then ⟨.tooManyRequests, m, cache, false⟩
  else if should_block cfg m username ip then
    ⟨.tooManyRequests, m, cache, hasWebhook⟩
  else if !credOk then
    let r := record_failure cfg m now username ip
    if should_block cfg r.1 username ip then
      ⟨.tooManyRequests, r.1, cache, hasWebhook⟩
    else ⟨.unauthorized, r.1, cache, false⟩
  else if !isActive then ⟨.unauthorized, m, cache, false⟩
  else
    let g := get_or_generate ttl now cache username freshTok
    ⟨.success g.1 (login_expires_in ttl), reset_on_success m username ip, g.2, false⟩

/-- HTTP status of a login outcome: success is 200; the failure branches
return `AppError::Unauthorized` and `AppError::TooManyRequests`
respectively, mapped by error.rs. -/
def loginHttpStatus : LoginResponse → Nat
  | .success _ _ => 200
  | .unauthorized => (AppErr.unauthorized "用户名或密码错误").httpStatus
  | .tooManyRequests => AppErr.tooManyRequests.httpStatus

/-- Run a sequence of same-credential login calls with a wrong password
(`credOk = false`) at the given instants, collecting each call's response
and webhook flag.  Global limiter admits; a webhook URL is configured. -/
def runFailedLogins (cfg : SecurityConfig) (username ip : String) :
    Attempts → List Nat → List (LoginResponse × Bool)
  | _, [] => []
  | m, t :: ts =>
      let o := login cfg 60 true true false true "tok" m [] t username ip
      (o.response, o.webhook) :: runFailedLogins cfg username ip o.attempts ts

/-! ### Global rate limiter (proxy/rate_limiter.rs)

The bucket's `tokens: f64` and the elapsed seconds are modelled as rationals;
on the values this development evaluates (whole token counts, zero elapsed
time) the `f64` arithmetic of the source is exact, so the rational model
computes the same numbers. -/

/-- `RateLimitConfig` (proxy/rate_limiter.rs:13-19). -/
structure RateLimitConfig where
  requests_per_second : Nat
  burst_capacity : Nat
deriving DecidableEq, Repr

/-- `TokenBucket` (proxy/rate_limiter.rs:21-26); `last_refill` is an instant
on the same timeline as `now`. -/
structure TokenBucket where
  tokens : ℚ
  last_refill : ℚ
deriving DecidableEq, Repr

/-- `GlobalRateLimiter::new` (proxy/rate_limiter.rs:30-44): capacity is
twice the rate and the bucket starts full. -/
def GlobalRateLimiter.new (rps : Nat) (t0 : ℚ) : RateLimitConfig × TokenBucket :=
  (⟨rps, rps * 2⟩, ⟨((rps * 2 : Nat) : ℚ), t0⟩)

/-- `GlobalRateLimiter::acquire` (proxy/rate_limiter.rs:48-79): refill by
`elapsed * rps` capped at the burst capacity, stamp `last_refill = now`,
then either consume one token or reject with the wait hint
`(1 - tokens) / rps`. -/
def acquire (cfg : RateLimitConfig) (now : ℚ) (st : TokenBucket) :
    Except ℚ Unit × TokenBucket :=
  let elapsed := now - st.last_refill
  let tokens := min (st.tokens + elapsed * (cfg.requests_per_second : ℚ))
    ((cfg.burst_capacity : ℚ))
  if 1 ≤ tokens then (.ok (), ⟨tokens - 1, now⟩)
  else (.error ((1 - tokens) / (cfg.requests_per_second : ℚ)), ⟨tokens, now⟩)

/-- Iterate `acquire` with no time elapsing: `some` final bucket when all
`n` calls were admitted, `none` as soon as one is rejected. -/
def acquireRun (cfg : RateLimitConfig) (now : ℚ) (st : TokenBucket) :
    Nat → Option TokenBucket
  | 0 => some st
  | n + 1 =>
      match acquireRun cfg now st n with
      | some st' =>
          match acquire cfg now st' with
          | (.ok _, st'') => some st''
          | (.error _, _) => none
      | none => none

/-! ### File-system write disciplines (auth/user_manager.rs, quota/manager.rs) -/

/-- The durable file-system effects the persistence paths perform. -/
inductive FsOp where
  | write (path : String)
  | rename (src dst : String)
deriving DecidableEq, Repr

/-- Target path of a user record: `<users_dir>/<username>.toml`
(auth/user_manager.rs:93). -/
def userFilePath (users_dir username : String) : String :=
  users_dir ++ "/" ++ username ++ ".toml"

/-- `UserManager::save_user` (auth/user_manager.rs:92-108): serialize and
`tokio::fs::write` the result directly to the target path — a single
in-place create-or-truncate write, with no temporary file and no rename. -/
def save_user_ops (users_dir username : String) : List FsOp :=
  [.write (userFilePath users_dir username)]

/-- Target path of a quota record: `<data_dir>/<username>.json`
(quota/manager.rs:209). -/
def quotaFilePath (data_dir username : String) : String :=
  data_dir ++ "/" ++ username ++ ".json"

/-- Temporary path `file_path.with_extension("tmp")` (quota/manager.rs:210):
the `.json` extension is replaced by `.tmp`. -/
def quotaTmpPath (data_dir username : String) : String :=
  data_dir ++ "/" ++ username ++ ".tmp"

/-- `QuotaManager::save_one`'s file effects (quota/manager.rs:209-224):
write the serialized state to the sibling temporary file, then rename it
over the target. -/
def quota_save_one_ops (data_dir username : String) : List FsOp :=
  [.write (quotaTmpPath data_dir username),
   .rename (quotaTmpPath data_dir username) (quotaFilePath data_dir username)]

/-- Whether a list of effects ever writes the given path in place. -/
def writesInPlace (ops : List FsOp) (target : String) : Bool :=
  ops.any (fun op => match op with | .write p => p == target | _ => false)

/-- Whether a list of effects installs the given path via a rename. -/
def installsByRename (ops : List FsOp) (target : String) : Bool :=
  ops.any (fun op => match op with | .rename _ d => d == target | _ => false)

/-! ### Username validation and user creation (auth/user_manager.rs)

Rust `&str` values are embedded as `List Char`; `str::len` is the UTF-8
byte length.  Rust's `char::is_alphanumeric` consults the Unicode tables;
the fragment embedded here is exact on the ASCII and Latin-1 ranges (the
code points this development evaluates) and conservatively `false` above
`U+00FF`. -/

/-- Rust strings as character lists. -/
abbrev RStr := List Char

/-- Rust `char::len_utf8`: UTF-8 encoded size of a scalar value. -/
def charLenUtf8 (c : Char) : Nat :=
  if c.toNat ≤ 0x7F then 1
  else if c.toNat ≤ 0x7FF then 2
  else if c.toNat ≤ 0xFFFF then 3
  else 4

/-- Rust `str::len`: the UTF-8 byte length of the string. -/
def strLen (s : RStr) : Nat := (s.map charLenUtf8).sum

/-- ASCII letters and digits. -/
def asciiAlnum (c : Char) : Bool :=
  (65 ≤ c.toNat && c.toNat ≤ 90) || (97 ≤ c.toNat && c.toNat ≤ 122) ||
    (48 ≤ c.toNat && c.toNat ≤ 57)

/-- Rust `char::is_alphanumeric` (Unicode Alphabetic or numeric), embedded
exactly on `U+0000`–`U+00FF`: the ASCII letters and digits, the Latin-1
letters `U+00C0`–`U+00FF` minus `×` and `÷`, and the Latin-1 letter and
numeric code points `ª µ º ² ³ ¹ ¼ ½ ¾`.  Code points above `U+00FF` are
outside the embedded table fragment and mapped to `false`. -/
def rustIsAlphanumeric (c : Char) : Bool :=
  if c.toNat < 0x80 then asciiAlnum c
  else if c.toNat < 0x100 then
    c.toNat == 0xAA || c.toNat == 0xB5 || c.toNat == 0xBA ||
    c.toNat == 0xB2 || c.toNat == 0xB3 || c.toNat == 0xB9 ||
    c.toNat == 0xBC || c.toNat == 0xBD || c.toNat == 0xBE ||
    (0xC0 ≤ c.toNat && c.toNat ≠ 0xD7 && c.toNat ≠ 0xF7)
  else false

/-- The character classes the per-character loop accepts
(auth/user_manager.rs:180-186): alphanumeric, underscore or hyphen. -/
def validUsernameChar (c : Char) : Bool :=
  rustIsAlphanumeric c || c == '_' || c == '-'

/-- The `dangerous_patterns` array (auth/user_manager.rs:189). -/
def dangerousPatterns : List RStr :=
  [['.'], ['.', '.'], ['/'], ['\\'], ['\x00']]

/-- Whether `pat` matches at the head of `s`. -/
def patAtHead : RStr → RStr → Bool
  | [], _ => true
  | _ :: _, [] => false
  | c :: p, d :: s => c == d && patAtHead p s

/-- Rust `str::contains(pat)`: `pat` occurs somewhere in `s` as a
contiguous substring. -/
def hasSubstr (pat : RStr) : RStr → Bool
  | [] => patAtHead pat []
  | c :: rest => patAtHead pat (c :: rest) || hasSubstr pat rest

/-- `UserManager::validate_username` (auth/user_manager.rs:162-199):
byte length 3–32, first character alphanumeric, every character
alphanumeric/underscore/hyphen, and none of the dangerous patterns as a
substring.  (The source reports a per-character message on the first bad
character; the messages are collapsed into one per check here.) -/
def validate_username (username : RStr) : Except String Unit :=
  if strLen username < 3 || 32 < strLen username then
    .error "用户名长度必须在 3-32 个字符之间"
  else if (match username with
           | [] => false
           | c :: _ => !(rustIsAlphanumeric c)) then
    .error "用户名必须以字母或数字开头"
  else if username.any (fun c => !(validUsernameChar c)) then
    .error "用户名包含非法字符"
  else if dangerousPatterns.any (fun p => hasSubstr p username) then
    .error "用户名不能包含危险字符或模式"
  else .ok ()

/-- `UserManager::create_user` (auth/user_manager.rs:202-227): validate the
username, reject when it already exists, otherwise `save_user` writes the
record; returned are the file effects performed. -/
def create_user (existing : List RStr) (users_dir : String) (username : RStr) :
    Except String (List FsOp) :=
  match validate_username username with
  | .error e => .error e
  | .ok () =>
      if existing.contains username then .error "用户已存在"
      else .ok (save_user_ops users_dir (String.mk username))

/-- The spec's username pattern `^[A-Za-z0-9][A-Za-z0-9_-]{2,31}$` as a
decidable matcher: an ASCII letter or digit followed by 2 to 31 ASCII
letters, digits, underscores or hyphens. -/
def specUsernamePattern (s : RStr) : Bool :=
  match s with
  | [] => false
  | c :: rest =>
      asciiAlnum c && rest.all (fun d => asciiAlnum d || d == '_' || d == '-') &&
        (2 ≤ rest.length && rest.length ≤ 31)

/-! ## Theorems -/

/-- C1: the claim states that a reset computed during February 2025 yields
the instant 2025-03-01T00:00:00+08:00.  Evaluating `next_month_reset` at a
February 2025 Beijing time shows the rendered RFC3339 value is
2025-03-01T08:00:00+08:00 — `from_naive_utc_and_offset` interprets the
naive midnight as UTC, so the printed local time is shifted by the offset,
contradicting the function's own doc comment ("下个月1号 0点（东八区）"). -/
theorem C1_next_month_reset_renders_utc_midnight :
    next_month_reset ⟨2025, 2, 15, 12, 0, 0⟩ = ⟨⟨2025, 3, 1, 8, 0, 0⟩, 28800⟩ ∧
    (⟨⟨2025, 3, 1, 8, 0, 0⟩, 28800⟩ : RenderedDT) ≠ ⟨⟨2025, 3, 1, 0, 0, 0⟩, 28800⟩ := by
  decide

/-- C2: with `used_count = monthly_limit - 1` and the reset instant not yet
passed, one more `check_and_increment` is admitted and raises `used_count`
to `monthly_limit`; any call on a state at or above its limit (before its
reset instant) returns `Exceeded{used, limit, reset_at}` — mapped to 402 —
and leaves the state (in particular `used_count` and `last_saved_count`)
unchanged, writing nothing. -/
theorem C2_quota_boundary (si : Nat) (now nextReset : Int) (st : QuotaState)
    (hnow : now ≤ st.reset_at) (hlim : 1 ≤ st.monthly_limit)
    (hused : st.used_count = st.monthly_limit - 1) :
    (check_and_increment si now nextReset st).status =
        .ok st.monthly_limit st.monthly_limit 0 st.reset_at ∧
    (check_and_increment si now nextReset st).state.used_count = st.monthly_limit ∧
    (check_and_increment si now nextReset st).state.monthly_limit = st.monthly_limit ∧
    (check_and_increment si now nextReset st).state.reset_at = st.reset_at ∧
    (∀ st2 : QuotaState, now ≤ st2.reset_at → st2.monthly_limit ≤ st2.used_count →
        check_and_increment si now nextReset st2 =
          ⟨.exceeded st2.used_count st2.monthly_limit st2.reset_at, st2, []⟩) ∧
    quotaHttpStatus (.exceeded st.monthly_limit st.monthly_limit st.reset_at) = 402 := by
  have hnr : ¬ (now > st.reset_at) := not_lt.mpr hnow
  have hlt : st.used_count < st.monthly_limit := by omega
  have hsucc : st.used_count + 1 = st.monthly_limit := by omega
  refine ⟨?_, ?_, ?_, ?_, ?_, rfl⟩
  · simp only [check_and_increment, if_neg hnr, if_neg (not_le.mpr hlt)]
    split <;> simp [hsucc]
  · simp only [check_and_increment, if_neg hnr, if_neg (not_le.mpr hlt)]
    split <;> simp [hsucc]
  · simp only [check_and_increment, if_neg hnr, if_neg (not_le.mpr hlt)]
    split <;> simp
  · simp only [check_and_increment, if_neg hnr, if_neg (not_le.mpr hlt)]
    split <;> simp
  · intro st2 h2 h2'
    have hnr2 : ¬ (now > st2.reset_at) := not_lt.mpr h2
    simp only [check_and_increment, if_neg hnr2, if_pos h2']

/-- C2 witness: a basic-tier state at 499/500 admits the call to 500, the
state at 500/500 is rejected untouched, and the rejection maps to 402. -/
theorem C2_quota_boundary_witness :
    (check_and_increment 100 0 1000
        ⟨"alice", "basic", 500, 499, 400, 50, none, true⟩).status =
      .ok 500 500 0 50 ∧
    check_and_increment 100 0 1000 ⟨"alice", "basic", 500, 500, 500, 50, some 0, false⟩ =
      ⟨.exceeded 500 500 50, ⟨"alice", "basic", 500, 500, 500, 50, some 0, false⟩, []⟩ ∧
    quotaHttpStatus (.exceeded 500 500 50) = 402 := by
  have h := C2_quota_boundary 100 0 1000
    ⟨"alice", "basic", 500, 499, 400, 50, none, true⟩
    (by decide) (by decide) (by decide)
  exact ⟨h.1,
    h.2.2.2.2.1 ⟨"alice", "basic", 500, 500, 500, 50, some 0, false⟩ (by decide) (by decide),
    h.2.2.2.2.2⟩

/-- C3 counterexample: a state with 37 increments since the last flush
(`used_count = 37`, `last_saved_count = 0`, dirty).  `save_all` writes the
state as-is: the on-disk `used_count` is 37 but the on-disk
`last_saved_count` is 0, not 37 as the claim states — `save_one` never
updates `last_saved_count`. -/
theorem C3_save_all_counterexample :
    save_all_writes [("alice", ⟨"alice", "basic", 500, 37, 0, 100, none, true⟩)] =
      [("alice", ⟨"alice", "basic", 500, 37, 0, 100, none⟩)] ∧
    (⟨"alice", "basic", 500, 37, 0, 100, none⟩ : QuotaStateDisk).used_count = 37 ∧
    ¬ (⟨"alice", "basic", 500, 37, 0, 100, none⟩ : QuotaStateDisk).last_saved_count = 37 := by
  decide

/-- C3 amended: for every user whose in-memory state is dirty, `save_all`
writes that user's quota file with the on-disk `used_count` equal to the
in-memory `used_count`; the on-disk `last_saved_count` equals the in-memory
`last_saved_count` (stale), not the just-written `used_count`. -/
theorem C3_save_all_flushes_dirty (cache : List (String × QuotaState))
    (u : String) (st : QuotaState)
    (hmem : (u, st) ∈ cache) (hdirty : st.dirty = true) :
    (u, serializeQuota st) ∈ save_all_writes cache ∧
    (serializeQuota st).used_count = st.used_count ∧
    (serializeQuota st).last_saved_count = st.last_saved_count := by
  refine ⟨?_, rfl, rfl⟩
  exact List.mem_map_of_mem _ (List.mem_filter.mpr ⟨hmem, by simpa using hdirty⟩)

/-- C3 witness: the dirty 37/0 state is flushed verbatim by `save_all`. -/
theorem C3_save_all_flushes_dirty_witness :
    ("alice", serializeQuota ⟨"alice", "basic", 500, 37, 0, 100, none, true⟩) ∈
      save_all_writes [("alice", ⟨"alice", "basic", 500, 37, 0, 100, none, true⟩)] ∧
    (serializeQuota ⟨"alice", "basic", 500, 37, 0, 100, none, true⟩).used_count = 37 := by
  have h := C3_save_all_flushes_dirty
    [("alice", ⟨"alice", "basic", 500, 37, 0, 100, none, true⟩)]
    "alice" ⟨"alice", "basic", 500, 37, 0, 100, none, true⟩ (by decide) rfl
  exact ⟨h.1, h.2.1⟩

/-- Looking up a key after erasing it finds nothing. -/
theorem findEntry_eraseEntry {β : Type} (m : List (String × β)) (k : String) :
    findEntry (eraseEntry m k) k = none := by
  induction m with
  | nil => rfl
  | cons p rest ih =>
      obtain ⟨k', v⟩ := p
      by_cases h : k' = k
      · simpa [eraseEntry, h] using ih
      · simp [eraseEntry, findEntry, h, ih]

/-- C4 counterexample: five failures recorded at instant 0, queried at
instant 1000 with a 60-second window and threshold 5.  All recorded
failures are far older than the window, so the claim's
prune-then-count`should_block` returns `false`; the code's `should_block`
does not prune and still returns `true` — the block does not end when the
window elapses. -/
theorem C4_should_block_counterexample :
    should_block ⟨60, 5⟩ [("alice:10.0.0.1", [0, 0, 0, 0, 0])] "alice" "10.0.0.1" = true ∧
    should_block_specModel ⟨60, 5⟩ [("alice:10.0.0.1", [0, 0, 0, 0, 0])] 1000
      "alice" "10.0.0.1" = false := by
  decide

/-- C4 amended: `should_block` compares the stored (unpruned) failure count
against the threshold, ignoring the clock: it blocks whenever the claim's
pruned count would block, and keeps blocking after the window has elapsed
(pruning happens only inside `record_failure`); a successful login's
`reset_on_success` removes the entry and unblocks. -/
theorem C4_should_block_amended (cfg : SecurityConfig) (m : Attempts) (now : Nat)
    (username ip : String) :
    (should_block_specModel cfg m now username ip = true →
      should_block cfg m username ip = true) ∧
    should_block cfg (reset_on_success m username ip) username ip = false := by
  constructor
  · intro h
    unfold should_block_specModel at h
    unfold should_block
    cases hf : findEntry m (bfKey username ip) with
    | none => rw [hf] at h; simp at h
    | some v =>
        rw [hf] at h
        simp only [decide_eq_true_eq] at h ⊢
        exact le_trans h (List.length_filter_le _ v)
  · unfold should_block reset_on_success
    rw [findEntry_eraseEntry]

/-- C4 witness: five fresh failures block while inside the window, and a
successful login clears the block. -/
theorem C4_should_block_amended_witness :
    should_block ⟨60, 5⟩ [("alice:10.0.0.1", [0, 0, 0, 0, 0])] "alice" "10.0.0.1" = true ∧
    should_block ⟨60, 5⟩
      (reset_on_success [("alice:10.0.0.1", [0, 0, 0, 0, 0])] "alice" "10.0.0.1")
      "alice" "10.0.0.1" = false := by
  have h := C4_should_block_amended ⟨60, 5⟩ [("alice:10.0.0.1", [0, 0, 0, 0, 0])] 10
    "alice" "10.0.0.1"
  exact ⟨h.1 (by decide), h.2⟩

/-- C5 counterexample: `alice/wrongpw` from 10.0.0.1 with threshold 5 and a
60-second window — attempts 1–4 return 401, but attempt 5, the failure that
reaches the threshold, returns 429 (recording the failure and spawning the
webhook), not 401 as the claim states: the handler checks `should_block`
right after `record_failure` and returns `TooManyRequests` when the new
count meets the threshold. -/
theorem C5_fifth_attempt_counterexample :
    runFailedLogins ⟨60, 5⟩ "alice" "10.0.0.1" [] [0, 1, 2, 3, 4] =
      [(.unauthorized, false), (.unauthorized, false), (.unauthorized, false),
       (.unauthorized, false), (.tooManyRequests, true)] ∧
    LoginResponse.tooManyRequests ≠ LoginResponse.unauthorized := by
  decide

/-- C5 amended: attempts 1–4 return 401 without a webhook; attempt 5 — the
failure reaching the threshold — records the failure, spawns the webhook and
returns 429; attempt 6, made after the block is armed, returns 429 (the
block-check branch, which also spawns the webhook). -/
theorem C5_login_six_attempts :
    runFailedLogins ⟨60, 5⟩ "alice" "10.0.0.1" [] [0, 1, 2, 3, 4, 5] =
      [(.unauthorized, false), (.unauthorized, false), (.unauthorized, false),
       (.unauthorized, false), (.tooManyRequests, true), (.tooManyRequests, true)] ∧
    (runFailedLogins ⟨60, 5⟩ "alice" "10.0.0.1" [] [0, 1, 2, 3, 4, 5]).map
        (fun r => loginHttpStatus r.1) =
      [401, 401, 401, 401, 429, 429] := by
  decide

/-- A successful lookup means the pair is in the list. -/
theorem findEntry_some_mem {β : Type} {m : List (String × β)} {k : String} {v : β}
    (h : findEntry m k = some v) : (k, v) ∈ m := by
  induction m with
  | nil => simp [findEntry] at h
  | cons p rest ih =>
      obtain ⟨k', v'⟩ := p
      by_cases hk : k' = k
      · subst hk
        simp [findEntry] at h
        subst h
        exact List.mem_cons_self _ _
      · simp [findEntry, hk] at h
        exact List.mem_cons_of_mem _ (ih h)

/-- Members after an insert-or-replace: the new pair, or an old member. -/
theorem mem_setEntry {β : Type} {m : List (String × β)} {k : String} {v : β}
    {p : String × β} (h : p ∈ setEntry m k v) : p = (k, v) ∨ p ∈ m := by
  induction m with
  | nil => simpa [setEntry] using h
  | cons q rest ih =>
      obtain ⟨k', v'⟩ := q
      by_cases hk : k' = k
      · simp [setEntry, hk] at h
        rcases h with h | h
        · exact Or.inl h
        · exact Or.inr (List.mem_cons_of_mem _ h)
      · simp [setEntry, hk] at h
        rcases h with h | h
        · exact Or.inr (by simp [h])
        · rcases ih h with h' | h'
          · exact Or.inl h'
          · exact Or.inr (List.mem_cons_of_mem _ h')

/-- Looking up the key just set finds the new value. -/
theorem findEntry_setEntry_self {β : Type} (m : List (String × β)) (k : String) (v : β) :
    findEntry (setEntry m k v) k = some v := by
  induction m with
  | nil => simp [setEntry, findEntry]
  | cons p rest ih =>
      obtain ⟨k', v'⟩ := p
      by_cases hk : k' = k
      · simp [setEntry, hk, findEntry]
      · simp [setEntry, hk, findEntry, ih]

/-- The well-formedness equation for one entry. -/
theorem entryWF_iff {e : TokenEntry} : entryWF e = true ↔ e.available + e.holders = 1 := by
  simp [entryWF]

/-- Pruning keeps the cache well formed. -/
theorem cacheWF_pruneCache {c : TokenCache} (now : Nat) (hc : cacheWF c = true) :
    cacheWF (pruneCache now c) = true := by
  rw [cacheWF, List.all_eq_true] at *
  intro p hp
  exact hc p (List.mem_filter.mp hp).1

/-- Inserting a well-formed entry keeps the cache well formed. -/
theorem cacheWF_setEntry {c : TokenCache} {k : String} {e : TokenEntry}
    (hc : cacheWF c = true) (he : entryWF e = true) : cacheWF (setEntry c k e) = true := by
  rw [cacheWF, List.all_eq_true] at *
  intro p hp
  rcases mem_setEntry hp with h | h
  · rw [h]; exact he
  · exact hc p h

/-- `acquire_permit_by_username` keeps every entry's permit accounting
balanced. -/
theorem acquire_permit_preserves_WF (now : Nat) (c : TokenCache) (username : String)
    (hwf : cacheWF c = true) :
    cacheWF (acquire_permit_by_username now c username).2 = true := by
  have hcp : cacheWF (pruneCache now c) = true := cacheWF_pruneCache now hwf
  unfold acquire_permit_by_username
  cases hf : findEntry (pruneCache now c) username with
  | none => simpa using hcp
  | some e =>
      by_cases hexp : now < e.expires_at
      · by_cases h0 : e.available = 0
        · simp [hexp, h0, hcp]
        · simp only [if_pos hexp, if_neg h0]
          refine cacheWF_setEntry hcp ?_
          have he := entryWF_iff.mp
            ((List.all_eq_true.mp hcp) _ (findEntry_some_mem hf))
          rw [entryWF_iff]
          simp only at he ⊢
          omega
      · simp [hexp, hcp]

/-- `release_permit` keeps every entry's permit accounting balanced. -/
theorem release_permit_preserves_WF (c : TokenCache) (username : String)
    (hwf : cacheWF c = true) : cacheWF (release_permit c username) = true := by
  unfold release_permit
  cases hf : findEntry c username with
  | none => simpa using hwf
  | some e =>
      by_cases h0 : e.holders = 0
      · simp [h0, hwf]
      · simp only [if_neg h0]
        refine cacheWF_setEntry hwf ?_
        have he := entryWF_iff.mp
          ((List.all_eq_true.mp hwf) _ (findEntry_some_mem hf))
        rw [entryWF_iff]
        simp only at he ⊢
        omega

/-- `get_or_generate` keeps every entry's permit accounting balanced: a
fresh entry starts with one free permit and no holders. -/
theorem get_or_generate_preserves_WF (ttl now : Nat) (c : TokenCache)
    (username freshTok : String) (hwf : cacheWF c = true) :
    cacheWF (get_or_generate ttl now c username freshTok).2 = true := by
  have hcp : cacheWF (pruneCache now c) = true := cacheWF_pruneCache now hwf
  unfold get_or_generate
  cases hf : findEntry (pruneCache now c) username with
  | none => exact cacheWF_setEntry hcp rfl
  | some e =>
      by_cases hexp : now < e.expires_at
      · simp [hexp, hcp]
      · simp only [if_neg hexp]
        exact cacheWF_setEntry hcp rfl

/-- C6: acquiring the per-user permit fails with
`Unauthorized("Token已过期，请重新登录")` (401) when the user has no
unexpired cache entry, fails with `TooManyRequests` (429) when the entry's
single permit is already taken, and otherwise succeeds, transferring the
entry's one permit to the caller as a handle; all limiter operations
preserve the permit accounting, so every entry has at most one outstanding
holder at any moment. -/
theorem C6_acquire_permit (ttl now : Nat) (c : TokenCache) (username freshTok : String)
    (hwf : cacheWF c = true) :
    (findEntry (pruneCache now c) username = none →
        acquire_permit_by_username now c username =
          (.error (.unauthorized "Token已过期，请重新登录"), pruneCache now c) ∧
        (AppErr.unauthorized "Token已过期，请重新登录").httpStatus = 401) ∧
    (∀ e : TokenEntry, findEntry (pruneCache now c) username = some e →
        e.available = 0 →
        acquire_permit_by_username now c username =
          (.error .tooManyRequests, pruneCache now c) ∧
        AppErr.tooManyRequests.httpStatus = 429) ∧
    (∀ e : TokenEntry, findEntry (pruneCache now c) username = some e →
        e.available ≠ 0 →
        (acquire_permit_by_username now c username).1 = .ok () ∧
        findEntry (acquire_permit_by_username now c username).2 username =
          some { e with available := e.available - 1, holders := e.holders + 1 }) ∧
    cacheWF (acquire_permit_by_username now c username).2 = true ∧
    cacheWF (release_permit c username) = true ∧
    cacheWF (get_or_generate ttl now c username freshTok).2 = true ∧
    (∀ p ∈ (acquire_permit_by_username now c username).2, p.2.holders ≤ 1) := by
  have hcp : cacheWF (pruneCache now c) = true := cacheWF_pruneCache now hwf
  have hexp_of : ∀ e : TokenEntry, findEntry (pruneCache now c) username = some e →
      now < e.expires_at := by
    intro e hf
    have hmem := findEntry_some_mem hf
    have := (List.mem_filter.mp hmem).2
    simpa using this
  refine ⟨?_, ?_, ?_, acquire_permit_preserves_WF now c username hwf,
    release_permit_preserves_WF c username hwf,
    get_or_generate_preserves_WF ttl now c username freshTok hwf, ?_⟩
  · intro hf
    refine ⟨?_, rfl⟩
    unfold acquire_permit_by_username
    rw [hf]
  · intro e hf h0
    refine ⟨?_, rfl⟩
    unfold acquire_permit_by_username
    rw [hf]
    simp [hexp_of e hf, h0]
  · intro e hf h0
    constructor
    · unfold acquire_permit_by_username
      rw [hf]
      simp [hexp_of e hf, h0]
    · unfold acquire_permit_by_username
      rw [hf]
      simp only [if_pos (hexp_of e hf), if_neg h0]
      exact findEntry_setEntry_self _ _ _
  · intro p hp
    have hwf2 := acquire_permit_preserves_WF now c username hwf
    have := entryWF_iff.mp ((List.all_eq_true.mp hwf2) p hp)
    omega

/-- C6 witness: a live entry with a free permit hands it out, leaving the
entry with no free permit and one holder. -/
theorem C6_acquire_permit_witness :
    (acquire_permit_by_username 10 [("alice", ⟨"tokA", 1, 0, 100⟩)] "alice").1 = .ok () ∧
    findEntry (acquire_permit_by_username 10 [("alice", ⟨"tokA", 1, 0, 100⟩)] "alice").2
      "alice" = some ⟨"tokA", 0, 1, 100⟩ := by
  have h := C6_acquire_permit 60 10 [("alice", ⟨"tokA", 1, 0, 100⟩)] "alice" "t" (by decide)
  have h3 := h.2.2.1 ⟨"tokA", 1, 0, 100⟩ (by decide) (by decide)
  exact ⟨h3.1, h3.2⟩

/-- From a full bucket, with no time elapsing, the first `k ≤ 2·rps` calls
are all admitted and leave `2·rps − k` tokens. -/
theorem acquireRun_full (rps : Nat) (now : ℚ) (k : Nat) (hk : k ≤ rps * 2) :
    acquireRun ⟨rps, rps * 2⟩ now ⟨((rps * 2 : Nat) : ℚ), now⟩ k =
      some ⟨((rps * 2 - k : Nat) : ℚ), now⟩ := by
  induction k with
  | zero => simp [acquireRun]
  | succ k ih =>
      have hk' : k ≤ rps * 2 := Nat.le_of_succ_le hk
      have hrun := ih hk'
      have htok : (1 : ℚ) ≤ ((rps * 2 - k : Nat) : ℚ) := by
        have : 1 ≤ rps * 2 - k := by omega
        exact_mod_cast this
      have hle : ((rps * 2 - k : Nat) : ℚ) ≤ ((rps * 2 : Nat) : ℚ) := by
        exact_mod_cast Nat.sub_le _ _
      have hmin : min (((rps * 2 - k : Nat) : ℚ) + (now - now) * (rps : ℚ))
          ((rps * 2 : Nat) : ℚ) = ((rps * 2 - k : Nat) : ℚ) := by
        rw [sub_self, zero_mul, add_zero]
        exact min_eq_left hle
      have hstep : acquire ⟨rps, rps * 2⟩ now ⟨((rps * 2 - k : Nat) : ℚ), now⟩ =
          (.ok (), ⟨((rps * 2 - (k + 1) : Nat) : ℚ), now⟩) := by
        unfold acquire
        simp only [hmin]
        rw [if_pos htok]
        have : ((rps * 2 - k : Nat) : ℚ) - 1 = ((rps * 2 - (k + 1) : Nat) : ℚ) := by
          rw [Nat.cast_sub hk', Nat.cast_sub hk]
          push_cast
          ring
        rw [this]
      unfold acquireRun
      simp only [hrun, hstep]

/-- C7: a global bucket created at rate `rps` has burst capacity `2·rps`
and starts full; at full capacity with no time elapsing it admits exactly
`2·rps` consecutive calls, after which its tokens are exhausted and the
next call is rejected with wait hint `(1 − 0)/rps = 1/rps` seconds. -/
theorem C7_bucket_admits_exactly_capacity (rps : Nat) (h : 1 ≤ rps) (t0 : ℚ) :
    (GlobalRateLimiter.new rps t0).1.burst_capacity = rps * 2 ∧
    (GlobalRateLimiter.new rps t0).2.tokens = ((rps * 2 : Nat) : ℚ) ∧
    acquireRun (GlobalRateLimiter.new rps t0).1 t0 (GlobalRateLimiter.new rps t0).2
      (rps * 2) = some ⟨0, t0⟩ ∧
    (acquire (GlobalRateLimiter.new rps t0).1 t0 ⟨0, t0⟩).1 =
      .error (1 / (rps : ℚ)) := by
  refine ⟨rfl, rfl, ?_, ?_⟩
  · have hrun := acquireRun_full rps t0 (rps * 2) le_rfl
    simpa [GlobalRateLimiter.new] using hrun
  · unfold GlobalRateLimiter.new acquire
    have hcap : (0 : ℚ) ≤ ((rps * 2 : Nat) : ℚ) := by positivity
    have hmin : min ((0 : ℚ) + (t0 - t0) * (rps : ℚ)) ((rps * 2 : Nat) : ℚ) = 0 := by
      rw [sub_self, zero_mul, add_zero]
      exact min_eq_left hcap
    simp only [hmin]
    rw [if_neg (by norm_num)]
    norm_num

/-- C7 witness: at rate 1 the full bucket (2 tokens) admits two calls and
the third is rejected with a one-second wait hint. -/
theorem C7_bucket_admits_exactly_capacity_witness :
    acquireRun ⟨1, 2⟩ 0 ⟨2, 0⟩ 2 = some ⟨0, 0⟩ ∧
    (acquire ⟨1, 2⟩ 0 ⟨0, 0⟩).1 = .error 1 := by
  have h := C7_bucket_admits_exactly_capacity 1 (by norm_num) 0
  constructor
  · have := h.2.2.1
    simpa [GlobalRateLimiter.new] using this
  · have := h.2.2.2
    simpa [GlobalRateLimiter.new] using this

/-- C8: the claim states the effective token-reuse window and the returned
`expires_in` are `min(configured_ttl, 60)`.  With `token_ttl_seconds = 120`:
`main` hands the limiter the unclamped 120 (while *logging* a 60-second
window, `ttl.min(60)`), a second login 90 seconds after the first still
returns the cached token, and `expires_in` is 120, not `min(120, 60) = 60` —
the clamp exists only in the log line and a comment. -/
theorem C8_ttl_not_clamped :
    mainLoginLimiterTtl 120 = 120 ∧
    mainLoggedReuseWindow 120 = 60 ∧
    mainLoginLimiterTtl 120 ≠ mainLoggedReuseWindow 120 ∧
    (get_or_generate (mainLoginLimiterTtl 120) 90
        (get_or_generate (mainLoginLimiterTtl 120) 0 [] "alice" "tokA").2
        "alice" "tokB").1 = "tokA" ∧
    login_expires_in 120 = 120 ∧
    login_expires_in 120 ≠ min 120 60 := by
  refine ⟨rfl, rfl, by decide, ?_, rfl, by decide⟩
  decide

/-- C9 counterexample: `save_user` for user `alice` performs exactly one
operation — an in-place write of `data/users/alice.toml` — with no
temporary file and no rename, unlike `save_one` for quota files, which
writes `data/quotas/alice.tmp` and renames it over `data/quotas/alice.json`. -/
theorem C9_save_user_counterexample :
    save_user_ops "data/users" "alice" = [.write "data/users/alice.toml"] ∧
    writesInPlace (save_user_ops "data/users" "alice")
      (userFilePath "data/users" "alice") = true ∧
    installsByRename (save_user_ops "data/users" "alice")
      (userFilePath "data/users" "alice") = false ∧
    writesInPlace (quota_save_one_ops "data/quotas" "alice")
      (quotaFilePath "data/quotas" "alice") = false ∧
    installsByRename (quota_save_one_ops "data/quotas" "alice")
      (quotaFilePath "data/quotas" "alice") = true := by
  decide

/-- C9 amended: user records are *not* written with the quota files'
atomic-rename discipline: for every directory and username, `save_user`
performs a single direct write to `<users_dir>/<username>.toml` (truncating
in place) and never installs the target by rename, while `save_one` writes
the sibling temporary file and renames it over `<data_dir>/<username>.json`. -/
theorem C9_save_user_writes_in_place (users_dir data_dir username : String) :
    save_user_ops users_dir username = [.write (userFilePath users_dir username)] ∧
    writesInPlace (save_user_ops users_dir username)
      (userFilePath users_dir username) = true ∧
    installsByRename (save_user_ops users_dir username)
      (userFilePath users_dir username) = false ∧
    quota_save_one_ops data_dir username =
      [.write (quotaTmpPath data_dir username),
       .rename (quotaTmpPath data_dir username) (quotaFilePath data_dir username)] ∧
    installsByRename (quota_save_one_ops data_dir username)
      (quotaFilePath data_dir username) = true := by
  refine ⟨rfl, ?_, rfl, rfl, ?_⟩
  · simp [writesInPlace, save_user_ops]
  · simp [installsByRename, quota_save_one_ops]

/-- A pattern matching at the head of `s` draws all its characters from `s`. -/
theorem mem_of_patAtHead {pat : RStr} :
    ∀ {s : RStr}, patAtHead pat s = true → ∀ c ∈ pat, c ∈ s := by
  induction pat with
  | nil => intro s _ c hc; simp at hc
  | cons a p ih =>
      intro s h c hc
      cases s with
      | nil => simp [patAtHead] at h
      | cons d s' =>
          simp only [patAtHead, Bool.and_eq_true, beq_iff_eq] at h
          rcases List.mem_cons.mp hc with hc | hc
          · subst hc; rw [h.1]; exact List.mem_cons_self _ _
          · exact List.mem_cons_of_mem _ (ih h.2 c hc)

/-- A substring occurrence draws all its characters from the string. -/
theorem mem_of_hasSubstr {pat : RStr} :
    ∀ {s : RStr}, hasSubstr pat s = true → ∀ c ∈ pat, c ∈ s := by
  intro s
  induction s with
  | nil =>
      intro h c hc
      cases pat with
      | nil => simp at hc
      | cons a p => simp [hasSubstr, patAtHead] at h
  | cons d s' ih =>
      intro h c hc
      simp only [hasSubstr, Bool.or_eq_true] at h
      rcases h with h | h
      · exact mem_of_patAtHead h c hc
      · exact List.mem_cons_of_mem _ (ih h c hc)

/-- ASCII letters and digits occupy one UTF-8 byte. -/
theorem charLenUtf8_one_of_asciiAlnum {c : Char} (h : asciiAlnum c = true) :
    charLenUtf8 c = 1 := by
  simp only [asciiAlnum, Bool.or_eq_true, Bool.and_eq_true, decide_eq_true_eq] at h
  rw [charLenUtf8, if_pos (by omega)]

/-- ASCII letters and digits are alphanumeric for Rust's classifier. -/
theorem rustIsAlphanumeric_of_asciiAlnum {c : Char} (h : asciiAlnum c = true) :
    rustIsAlphanumeric c = true := by
  have hb : c.toNat < 0x80 := by
    simp only [asciiAlnum, Bool.or_eq_true, Bool.and_eq_true, decide_eq_true_eq] at h
    omega
  rw [rustIsAlphanumeric, if_pos hb]
  exact h

/-- Characters admitted by the spec pattern's tail class are single-byte
and accepted by the validation loop. -/
theorem tailClass_facts {c : Char}
    (h : (asciiAlnum c || c == '_' || c == '-') = true) :
    charLenUtf8 c = 1 ∧ validUsernameChar c = true := by
  simp only [Bool.or_eq_true, beq_iff_eq] at h
  rcases h with (h | h) | h
  · exact ⟨charLenUtf8_one_of_asciiAlnum h,
      by simp [validUsernameChar, rustIsAlphanumeric_of_asciiAlnum h]⟩
  · subst h; exact ⟨rfl, rfl⟩
  · subst h; exact ⟨rfl, rfl⟩

/-- A string of single-byte characters has as many bytes as characters. -/
theorem strLen_of_single_byte {l : RStr} (h : ∀ c ∈ l, charLenUtf8 c = 1) :
    strLen l = l.length := by
  induction l with
  | nil => rfl
  | cons c r ih =>
      have hc := h c (List.mem_cons_self c r)
      have ih' := ih (fun d hd => h d (List.mem_cons_of_mem c hd))
      simp only [strLen, List.map_cons, List.sum_cons, List.length_cons] at ih' ⊢
      rw [hc]
      rw [show (r.map charLenUtf8).sum = strLen r from rfl] at ih' ⊢
      omega

/-- C10 counterexample: the username `"ábc"` (U+00E1, a Latin-1 letter) is
4 UTF-8 bytes and is accepted by `validate_username` — `create_user` writes
its file — yet it does not match the spec's ASCII pattern
`^[A-Za-z0-9][A-Za-z0-9_-]{2,31}$`, refuting the claimed "only if":
the code's `char::is_alphanumeric` admits all Unicode letters. -/
theorem C10_username_counterexample :
    validate_username "ábc".data = .ok () ∧
    specUsernamePattern "ábc".data = false ∧
    create_user [] "data/users" "ábc".data = .ok [.write "data/users/ábc.toml"] :=
  ⟨rfl, rfl, rfl⟩

/-- C10 amended: `validate_username` accepts exactly the strings of UTF-8
byte length 3–32 whose first character is alphanumeric per Rust's Unicode
classifier and whose characters are all alphanumeric, `_` or `-` (the
dangerous-pattern check is subsumed by the character class); every username
matching the spec's ASCII pattern is accepted, but acceptance is strictly
wider; when validation fails, `create_user` fails and writes no file. -/
theorem C10_username_validation_amended (s : RStr) :
    (validate_username s = .ok () ↔
      (3 ≤ strLen s ∧ strLen s ≤ 32 ∧
       (∀ c, s.head? = some c → rustIsAlphanumeric c = true) ∧
       (∀ c ∈ s, validUsernameChar c = true))) ∧
    (specUsernamePattern s = true → validate_username s = .ok ()) ∧
    (∀ existing users_dir ops, validate_username s ≠ .ok () →
       create_user existing users_dir s ≠ .ok ops) := by
  have hiff : validate_username s = .ok () ↔
      (3 ≤ strLen s ∧ strLen s ≤ 32 ∧
       (∀ c, s.head? = some c → rustIsAlphanumeric c = true) ∧
       (∀ c ∈ s, validUsernameChar c = true)) := by
    constructor
    · intro h
      unfold validate_username at h
      split_ifs at h with h1 h2 h3 h4
      simp only [Bool.or_eq_true, decide_eq_true_eq, not_or] at h1
      refine ⟨by omega, by omega, ?_, ?_⟩
      · intro c hc
        cases s with
        | nil => simp at hc
        | cons a r =>
            simp only [List.head?_cons, Option.some.injEq] at hc
            subst hc
            simpa using h2
      · intro c hc
        by_contra hbad
        exact h3 (List.any_eq_true.mpr ⟨c, hc, by simpa using hbad⟩)
    · rintro ⟨h1, h2, h3, h4⟩
      have hdot : ∀ ch : Char, ch ∈ s → validUsernameChar ch = true := h4
      unfold validate_username
      rw [if_neg (by simp only [Bool.or_eq_true, decide_eq_true_eq, not_or]; omega)]
      rw [if_neg ?hfirst]
      case hfirst =>
        cases s with
        | nil => simp
        | cons a r =>
            have := h3 a (by simp)
            simp [this]
      rw [if_neg ?hchars]
      case hchars =>
        simp only [List.any_eq_true, not_exists, Bool.not_eq_true, not_and]
        intro c hc
        simp [h4 c hc]
      rw [if_neg ?hdanger]
      case hdanger =>
        intro hany
        obtain ⟨pat, hpat, hsub⟩ := List.any_eq_true.mp hany
        have hbad : ∃ c0, c0 ∈ pat ∧ validUsernameChar c0 = false := by
          fin_cases hpat
          · exact ⟨'.', by simp, by decide⟩
          · exact ⟨'.', by simp, by decide⟩
          · exact ⟨'/', by simp, by decide⟩
          · exact ⟨'\\', by simp, by decide⟩
          · exact ⟨'\x00', by simp, by decide⟩
        obtain ⟨c0, hc0, hval⟩ := hbad
        have hmem := h4 c0 (mem_of_hasSubstr hsub c0 hc0)
        rw [hmem] at hval
        exact absurd hval (by decide)
  refine ⟨hiff, ?_, ?_⟩
  · intro hp
    cases s with
    | nil => simp [specUsernamePattern] at hp
    | cons a r =>
        simp only [specUsernamePattern, Bool.and_eq_true, List.all_eq_true,
          decide_eq_true_eq] at hp
        obtain ⟨⟨ha, hall⟩, hlen2, hlen31⟩ := hp
        have hone : ∀ c ∈ a :: r, charLenUtf8 c = 1 := by
          intro c hc
          rcases List.mem_cons.mp hc with hc | hc
          · subst hc; exact charLenUtf8_one_of_asciiAlnum ha
          · exact (tailClass_facts (hall c hc)).1
        have hlen := strLen_of_single_byte hone
        refine hiff.mpr ⟨?_, ?_, ?_, ?_⟩
        · rw [hlen]; simp; omega
        · rw [hlen]; simp; omega
        · intro c hc
          simp only [List.head?_cons, Option.some.injEq] at hc
          subst hc
          exact rustIsAlphanumeric_of_asciiAlnum ha
        · intro c hc
          rcases List.mem_cons.mp hc with hc | hc
          · subst hc
            simp [validUsernameChar, rustIsAlphanumeric_of_asciiAlnum ha]
          · exact (tailClass_facts (hall c hc)).2
  · intro existing users_dir ops hne
    cases hval : validate_username s with
    | ok u => cases u; exact absurd hval hne
    | error e => simp [create_user, hval]

/-- C10 witness: the ASCII username `abc` matches the spec pattern and is
accepted by the validator. -/
theorem C10_username_validation_amended_witness :
    validate_username "abc".data = .ok () :=
  (C10_username_validation_amended "abc".data).2.1 (by decide)

end DeepseekProxy
